import Mathlib

/-!
Verification of the LLMProxy webhook receiver (`examples/webhook-receiver.py`)
against its natural-language specification.

The receiver is a small Flask app with two routes:

* `POST /llm-usage` (`receive_usage`): inside a `try` block it evaluates
  `request.json` (which raises a `BadRequest` exception on a malformed body),
  prints the payload, appends `json.dumps(data, ensure_ascii=False) + '\n'`
  to `usage_log.jsonl` (opened in append mode inside a `with` block, so the
  buffer is flushed on close before the return), and returns
  `{"status": "ok", "message": "用量数据已接收"}` with HTTP 200.
  Any exception is caught by `except Exception as e`, which returns
  `{"status": "error", "message": str(e)}` with HTTP 500.
* `GET /health` (`health`): returns `{"status": "healthy"}` with HTTP 200,
  reading no state.

The embedding models JSON values structurally, the serializer
`json.dumps(·, ensure_ascii=False)` at the character level, the backing
`usage_log.jsonl` file by its actual character contents alongside the list of
fully committed records, and each request handler as a pure function that
also emits an ordered event trace (append attempt, write, flush, response
sent), reflecting the statement order of the Python source. Because the
source writes through a buffered text stream, a failing append is modelled as
the medium raising after accepting some prefix of the line, so partial line
commits (e.g. on a full disk, or a line larger than the I/O buffer) are
representable rather than assumed away.
-/

/-- A JSON value as produced by Python's `json` module for the payloads this
receiver handles: `null`, booleans, integers, strings, arrays, objects.
(Float literals are outside the scope of the claims and are not modelled.) -/
inductive Json where
  | null : Json
  | bool : Bool → Json
  | num : Int → Json
  | str : String → Json
  | arr : List Json → Json
  | obj : List (String × Json) → Json

/-- The character `%x` hex digit used by `json.dumps` in `\uXXXX` escapes. -/
def hexDigit (n : Nat) : Char :=
  if n % 16 < 10 then Char.ofNat (48 + n % 16) else Char.ofNat (87 + n % 16)

/-- Four lowercase hex digits, as in Python's `'\u%04x'` escape body. -/
def hex4 (n : Nat) : List Char :=
  [hexDigit (n / 4096), hexDigit (n / 256), hexDigit (n / 16), hexDigit n]

/-- How `json.dumps(·, ensure_ascii=False)` renders one character inside a
string literal: `"` and `\` are escaped, the control characters below 0x20
use their short escapes or `\u00XX`, every other character (including
non-ASCII, since `ensure_ascii=False`) is emitted verbatim. -/
def escapeChar (c : Char) : List Char :=
  if c = '"' then ['\\', '"']
  else if c = '\\' then ['\\', '\\']
  else if c = '\n' then ['\\', 'n']
  else if c = '\r' then ['\\', 'r']
  else if c = '\t' then ['\\', 't']
  else if c.toNat = 8 then ['\\', 'b']
  else if c.toNat = 12 then ['\\', 'f']
  else if c.toNat < 32 then '\\' :: 'u' :: hex4 c.toNat
  else [c]

/-- A JSON string literal: opening quote, escaped characters, closing quote. -/
def quoteChars (cs : List Char) : List Char :=
  '"' :: (cs.map escapeChar).flatten ++ ['"']

/-- Decimal digit character, as in Python's integer formatting. -/
def digitChar (d : Nat) : Char :=
  Char.ofNat (48 + d % 10)

/-- Decimal digits with an explicit fuel bound, so the definition is
structurally recursive and evaluates by kernel reduction; `fuel = n + 1`
always suffices since the argument shrinks by a factor of ten each step. -/
def natCharsAux : Nat → Nat → List Char
  | 0, _ => []
  | fuel + 1, n =>
      if n < 10 then [digitChar n]
      else natCharsAux fuel (n / 10) ++ [digitChar (n % 10)]

/-- Decimal digits of a natural number, most significant first. -/
def natChars (n : Nat) : List Char := natCharsAux (n + 1) n

/-- Decimal rendering of a Python integer, with a leading minus sign when
negative. -/
def intChars (n : Int) : List Char :=
  if n < 0 then '-' :: natChars n.natAbs else natChars n.toNat

mutual

/-- Character-level model of `json.dumps(data, ensure_ascii=False)` with the
default separators `(', ', ': ')` used when no `indent` is given: this is
exactly the call on line 35 of the source that produces the persisted line. -/
def dumpChars : Json → List Char
  | .null => "null".data
  | .bool true => "true".data
  | .bool false => "false".data
  | .num n => intChars n
  | .str s => quoteChars s.data
  | .arr xs => '[' :: dumpsArr xs ++ [']']
  | .obj kvs => '\x7b' :: dumpsMembers kvs ++ ['\x7d']

/-- Array elements joined by `', '`. -/
def dumpsArr : List Json → List Char
  | [] => []
  | [x] => dumpChars x
  | x :: y :: xs => dumpChars x ++ ',' :: ' ' :: dumpsArr (y :: xs)

/-- Object members `"key": value` joined by `', '`. -/
def dumpsMembers : List (String × Json) → List Char
  | [] => []
  | [(k, v)] => quoteChars k.data ++ ':' :: ' ' :: dumpChars v
  | (k, v) :: m :: kvs =>
      quoteChars k.data ++ ':' :: ' ' :: dumpChars v ++ ',' :: ' ' :: dumpsMembers (m :: kvs)

end

/-- `json.dumps(data, ensure_ascii=False)` as a Lean `String`. -/
def dumps (j : Json) : String := ⟨dumpChars j⟩

example : dumps (Json.obj [("model", Json.str "gpt-4"), ("tokens", Json.num 123)]) =
    "\x7b\"model\": \"gpt-4\", \"tokens\": 123\x7d" := by decide

example : dumps (Json.arr [Json.null, Json.bool true, Json.num (-7), Json.str "a\nb"]) =
    "[null, true, -7, \"a\\nb\"]" := by decide

/-- The backing store `usage_log.jsonl`, modelled as the ordered list of
committed records. The character-level file image is derived by
`fileChars`. -/
abbrev Store := List Json

/-- The byte-level (character-level) contents of `usage_log.jsonl`: each
committed record's `json.dumps` serialization followed by the `'\n'`
terminator that line 35 of the source appends. -/
def fileChars : Store → List Char
  | [] => []
  | r :: rs => dumpChars r ++ '\n' :: fileChars rs

/-- An HTTP response as produced by `jsonify(body), status`. -/
structure Response where
  status : Nat
  body : Json

/-- Observable steps of one request, in the order the handler performs them:
entering the append (the `open` call on line 34), the completed
`f.write` of the full line (line 35), the flush when the `with` block closes
the file, and the handler returning its response. -/
inductive Event where
  | appendAttempt : Json → Event
  | wrote : List Char → Event
  | flushed : Event
  | respSent : Response → Event

/-- The disposition of the backing medium for one request's append. The
source writes through a buffered `TextIOWrapper` (`open('a')`, `f.write`,
flush at `with`-block close), so the medium either accepts the whole line, or
raises after some prefix of the line has already reached the file:
`failed k e` records that the first `k` characters were committed before the
exception with text `e` was raised — `k = 0` when `open` itself failed,
`0 < k <` length when the write or the close-time flush stopped partway
(e.g. a full disk, or a line larger than the I/O buffer), and `k ≥` length
when all data was flushed but the close still raised. -/
inductive WriteOutcome where
  | accepted : WriteOutcome
  | failed : Nat → String → WriteOutcome

/-- One inbound `POST /llm-usage` request, described by the outcomes of the
two external effects the handler performs: `request.json` (Flask parses the
body; on a malformed body it raises an exception whose text becomes `str(e)`)
and the append to `usage_log.jsonl`. -/
structure Request where
  jsonOutcome : Except String Json
  writeOutcome : WriteOutcome

/-- The state owned by the handler across requests: the committed records
(those whose full line, terminator included, reached the file) and the actual
character contents of `usage_log.jsonl`. In failure-free runs
`file = fileChars store`; a failed append can leave a partial fragment in
`file` that corresponds to no record. -/
structure LogState where
  store : Store
  file : List Char

/-- Everything one handler invocation produces: the HTTP response, the log
state after the request, and the ordered event trace. -/
structure HandlerResult where
  resp : Response
  state : LogState
  events : List Event

/-- The success body from line 37: `{"status": "ok", "message": "用量数据已接收"}`. -/
def okBody : Json :=
  Json.obj [("status", Json.str "ok"), ("message", Json.str "用量数据已接收")]

/-- The error body from line 41: `{"status": "error", "message": str(e)}`. -/
def errorBody (e : String) : Json :=
  Json.obj [("status", Json.str "error"), ("message", Json.str e)]

/-- The health body from line 46: `{"status": "healthy"}`. -/
def healthyBody : Json := Json.obj [("status", Json.str "healthy")]

/-- The `POST /llm-usage` handler (lines 13–41 of the source). The whole body
sits in one `try` block: `data = request.json` raises on a malformed body and
control jumps to `except Exception as e` before any append, returning 500 with
`errorBody (str e)`. With a parsed payload, the handler opens the log in
append mode, writes `json.dumps(data, ensure_ascii=False) + '\n'`, and the
`with` block flushes and closes the file; only then is the 200 success
response returned. If the append raises, the same `except` branch returns
500; the file keeps whatever prefix of the line the buffered write and flush
had already committed (`WriteOutcome.failed` says how much), and no record is
registered. -/
def receive_usage (req : Request) (st : LogState) : HandlerResult :=
  match req.jsonOutcome with
  | .error e =>
      let resp : Response := ⟨500, errorBody e⟩
      ⟨resp, st, [.respSent resp]⟩
  | .ok data =>
      let line := dumpChars data ++ ['\n']
      match req.writeOutcome with
      | .failed k e =>
          let resp : Response := ⟨500, errorBody e⟩
          ⟨resp, ⟨st.store, st.file ++ line.take k⟩, [.appendAttempt data, .respSent resp]⟩
      | .accepted =>
          let resp : Response := ⟨200, okBody⟩
          ⟨resp, ⟨st.store ++ [data], st.file ++ line⟩,
            [.appendAttempt data, .wrote line, .flushed, .respSent resp]⟩

/-- The `GET /health` handler (lines 43–46). It reads no state at all; the
state parameter records that it is independent of every prior request. -/
def health (_st : LogState) : Response := ⟨200, healthyBody⟩

/-- Sequential processing of a list of requests by the server, threading the
log state through; returns the responses in order and the final state. -/
def processAll : List Request → LogState → List Response × LogState
  | [], st => ([], st)
  | r :: rs, st =>
      let out := receive_usage r st
      let rest := processAll rs out.state
      (out.resp :: rest.1, rest.2)

/-- How many times a trace entered the append (opened the log for writing). -/
def appendAttemptCount (events : List Event) : Nat :=
  (events.filter fun e => match e with | .appendAttempt _ => true | _ => false).length

/-- Appending commutes with taking the file image, record by record. -/
theorem fileChars_append (s t : Store) : fileChars (s ++ t) = fileChars s ++ fileChars t := by
  induction s with
  | nil => rfl
  | cons r rs ih => simp [fileChars, ih]

/-- C1: a request whose body parses as JSON value P makes at most one append
attempt (no internal retry), and when the medium accepts the write the
handler returns 200 with the success body, the store gains exactly the record
P, the file gains exactly the one line `dumps P ++ "\n"`, and exactly one
append attempt happened. -/
theorem receive_usage_valid_json (req : Request) (st : LogState) (P : Json)
    (hj : req.jsonOutcome = .ok P) :
    appendAttemptCount (receive_usage req st).events ≤ 1 ∧
    (req.writeOutcome = .accepted →
      (receive_usage req st).resp.status = 200 ∧
      (receive_usage req st).resp.body = okBody ∧
      (receive_usage req st).state.store = st.store ++ [P] ∧
      (receive_usage req st).state.file = st.file ++ (dumpChars P ++ ['\n']) ∧
      appendAttemptCount (receive_usage req st).events = 1) := by
  obtain ⟨jo, wo⟩ := req
  cases hj
  cases wo with
  | failed k e => simp [receive_usage, appendAttemptCount]
  | accepted =>
      exact ⟨by simp [receive_usage, appendAttemptCount],
        fun _ => ⟨rfl, rfl, rfl, rfl, rfl⟩⟩

/-- C1 witness: the concrete payload `{"model": "gpt-4", "tokens": 123}` on an
empty log, with a medium that accepts the write. -/
theorem receive_usage_valid_json_witness :
    appendAttemptCount (receive_usage
        ⟨.ok (Json.obj [("model", Json.str "gpt-4"), ("tokens", Json.num 123)]), .accepted⟩
        ⟨[], []⟩).events ≤ 1 ∧
    ((⟨.ok (Json.obj [("model", Json.str "gpt-4"), ("tokens", Json.num 123)]), .accepted⟩ :
        Request).writeOutcome = .accepted →
      (receive_usage
        ⟨.ok (Json.obj [("model", Json.str "gpt-4"), ("tokens", Json.num 123)]), .accepted⟩
        ⟨[], []⟩).resp.status = 200 ∧
      (receive_usage
        ⟨.ok (Json.obj [("model", Json.str "gpt-4"), ("tokens", Json.num 123)]), .accepted⟩
        ⟨[], []⟩).resp.body = okBody ∧
      (receive_usage
        ⟨.ok (Json.obj [("model", Json.str "gpt-4"), ("tokens", Json.num 123)]), .accepted⟩
        ⟨[], []⟩).state.store =
          [] ++ [Json.obj [("model", Json.str "gpt-4"), ("tokens", Json.num 123)]] ∧
      (receive_usage
        ⟨.ok (Json.obj [("model", Json.str "gpt-4"), ("tokens", Json.num 123)]), .accepted⟩
        ⟨[], []⟩).state.file = [] ++
          (dumpChars (Json.obj [("model", Json.str "gpt-4"), ("tokens", Json.num 123)]) ++
            ['\n']) ∧
      appendAttemptCount (receive_usage
        ⟨.ok (Json.obj [("model", Json.str "gpt-4"), ("tokens", Json.num 123)]), .accepted⟩
        ⟨[], []⟩).events = 1) :=
  receive_usage_valid_json _ ⟨[], []⟩
    (Json.obj [("model", Json.str "gpt-4"), ("tokens", Json.num 123)]) rfl

/-- C2 counterexample: a request whose body is not valid JSON (Flask's
`request.json` raises, here with the text of its `BadRequest` exception) is
answered with status 500, not 400: the exception is caught by the handler's
generic `except Exception` branch, which always returns 500. -/
theorem receive_usage_malformed_not_400 :
    (receive_usage
      ⟨.error "400 Bad Request: Failed to decode JSON object", .accepted⟩
      ⟨[], []⟩).resp.status ≠ 400 := by
  decide

/-- C2 (amended): a request whose body is not valid JSON is answered with
status 500 and the structured error body, the store and the file are
unchanged, and no append is attempted. -/
theorem receive_usage_malformed (req : Request) (st : LogState) (e : String)
    (hj : req.jsonOutcome = .error e) :
    (receive_usage req st).resp.status = 500 ∧
    (receive_usage req st).resp.body = errorBody e ∧
    (receive_usage req st).state.store = st.store ∧
    (receive_usage req st).state.file = st.file ∧
    appendAttemptCount (receive_usage req st).events = 0 := by
  obtain ⟨jo, wo⟩ := req
  cases hj
  exact ⟨rfl, rfl, rfl, rfl, rfl⟩

/-- C2 witness: a concrete malformed-body request on an empty log. -/
theorem receive_usage_malformed_witness :
    (receive_usage ⟨.error "boom", .accepted⟩ ⟨[], []⟩).resp.status = 500 ∧
    (receive_usage ⟨.error "boom", .accepted⟩ ⟨[], []⟩).resp.body = errorBody "boom" ∧
    (receive_usage ⟨.error "boom", .accepted⟩ ⟨[], []⟩).state.store = [] ∧
    (receive_usage ⟨.error "boom", .accepted⟩ ⟨[], []⟩).state.file = [] ∧
    appendAttemptCount (receive_usage ⟨.error "boom", .accepted⟩ ⟨[], []⟩).events = 0 :=
  receive_usage_malformed ⟨.error "boom", .accepted⟩ ⟨[], []⟩ "boom" rfl

/-- C3 counterexample: the payload `1` on an empty log, with the medium
raising a disk-full error after committing a single character of the line
`"1\n"`. The handler answers 500, but the file now holds exactly `['1']`: the
prior content (empty) is no longer the whole file, yet the full line was not
committed either — the append on this code path is not atomic. -/
theorem receive_usage_partial_line_commit :
    (receive_usage ⟨.ok (Json.num 1), .failed 1 "[Errno 28] No space left on device"⟩
        ⟨[], []⟩).resp.status = 500 ∧
    (receive_usage ⟨.ok (Json.num 1), .failed 1 "[Errno 28] No space left on device"⟩
        ⟨[], []⟩).state.file = ['1'] ∧
    (['1'] : List Char) ≠ [] ∧
    (['1'] : List Char) ≠ [] ++ (dumpChars (Json.num 1) ++ ['\n']) := by
  decide

/-- C3 (amended): when the body parsed but the append raises after the medium
accepted the first k characters of the line, the handler returns 500 with the
structured error body carrying a message, and no record is registered; the
previously committed content is preserved as a prefix of the file, but the
append is not atomic — the file additionally retains the committed prefix of
the new line, which can be a partial fragment. -/
theorem receive_usage_append_failure (req : Request) (st : LogState) (P : Json)
    (k : Nat) (e : String)
    (hj : req.jsonOutcome = .ok P) (hw : req.writeOutcome = .failed k e) :
    (receive_usage req st).resp.status = 500 ∧
    (receive_usage req st).resp.body = errorBody e ∧
    (receive_usage req st).state.store = st.store ∧
    (receive_usage req st).state.file = st.file ++ (dumpChars P ++ ['\n']).take k ∧
    (receive_usage req st).state.file.take st.file.length = st.file := by
  obtain ⟨jo, wo⟩ := req
  cases hj
  cases hw
  refine ⟨rfl, rfl, rfl, rfl, ?_⟩
  show (st.file ++ (dumpChars P ++ ['\n']).take k).take st.file.length = st.file
  exact List.take_left st.file _

/-- C3 witness: a valid payload whose write raises a permission error before
anything reached the file (k = 0), on a log already holding one record. -/
theorem receive_usage_append_failure_witness :
    (receive_usage ⟨.ok Json.null, .failed 0 "Permission denied"⟩
      ⟨[Json.num 1], fileChars [Json.num 1]⟩).resp.status = 500 ∧
    (receive_usage ⟨.ok Json.null, .failed 0 "Permission denied"⟩
      ⟨[Json.num 1], fileChars [Json.num 1]⟩).resp.body = errorBody "Permission denied" ∧
    (receive_usage ⟨.ok Json.null, .failed 0 "Permission denied"⟩
      ⟨[Json.num 1], fileChars [Json.num 1]⟩).state.store = [Json.num 1] ∧
    (receive_usage ⟨.ok Json.null, .failed 0 "Permission denied"⟩
      ⟨[Json.num 1], fileChars [Json.num 1]⟩).state.file =
        fileChars [Json.num 1] ++ (dumpChars Json.null ++ ['\n']).take 0 ∧
    (receive_usage ⟨.ok Json.null, .failed 0 "Permission denied"⟩
      ⟨[Json.num 1], fileChars [Json.num 1]⟩).state.file.take
        (fileChars [Json.num 1]).length = fileChars [Json.num 1] :=
  receive_usage_append_failure _ ⟨[Json.num 1], fileChars [Json.num 1]⟩ Json.null 0
    "Permission denied" rfl rfl

/-- C4: every 200 response comes from a trace in which the full line was
written and flushed to the medium strictly before the response was sent, and
the record is in the store: there is no trace with a success response and an
uncommitted record. -/
theorem receive_usage_ack_after_durable (req : Request) (st : LogState)
    (h : (receive_usage req st).resp.status = 200) :
    ∃ P, req.jsonOutcome = .ok P ∧
      (receive_usage req st).state.store = st.store ++ [P] ∧
      (receive_usage req st).state.file = st.file ++ (dumpChars P ++ ['\n']) ∧
      (receive_usage req st).events =
        [.appendAttempt P, .wrote (dumpChars P ++ ['\n']), .flushed,
          .respSent (receive_usage req st).resp] := by
  obtain ⟨jo, wo⟩ := req
  cases jo with
  | error e => simp [receive_usage] at h
  | ok data =>
      cases wo with
      | failed k e => simp [receive_usage] at h
      | accepted => exact ⟨data, rfl, rfl, rfl, rfl⟩

/-- C4 witness: the concrete payload `"x"` on a one-record log. -/
theorem receive_usage_ack_after_durable_witness :
    ∃ P, (⟨.ok (Json.str "x"), .accepted⟩ : Request).jsonOutcome = .ok P ∧
      (receive_usage ⟨.ok (Json.str "x"), .accepted⟩
        ⟨[Json.null], fileChars [Json.null]⟩).state.store = [Json.null] ++ [P] ∧
      (receive_usage ⟨.ok (Json.str "x"), .accepted⟩
        ⟨[Json.null], fileChars [Json.null]⟩).state.file =
          fileChars [Json.null] ++ (dumpChars P ++ ['\n']) ∧
      (receive_usage ⟨.ok (Json.str "x"), .accepted⟩
        ⟨[Json.null], fileChars [Json.null]⟩).events =
        [.appendAttempt P, .wrote (dumpChars P ++ ['\n']), .flushed,
          .respSent (receive_usage ⟨.ok (Json.str "x"), .accepted⟩
            ⟨[Json.null], fileChars [Json.null]⟩).resp] :=
  receive_usage_ack_after_durable ⟨.ok (Json.str "x"), .accepted⟩
    ⟨[Json.null], fileChars [Json.null]⟩ rfl

/-- C7: after the server has processed any sequence of prior usage requests
with any outcomes, starting from any log state, the health handler still
returns 200 with body `{"status": "healthy"}`: it reads none of that state. -/
theorem health_always_healthy (reqs : List Request) (st : LogState) :
    health (processAll reqs st).2 = ⟨200, healthyBody⟩ := rfl

/-- C8: ingestion is not idempotent. Issuing the same valid request twice
appends two records, both equal to the payload P: the store grows by exactly
two records, the file by the same line twice, and both responses are 200. No
duplicate detection occurs. -/
theorem receive_usage_not_idempotent (req : Request) (st : LogState) (P : Json)
    (hj : req.jsonOutcome = .ok P) (hw : req.writeOutcome = .accepted) :
    (processAll [req, req] st).2.store = st.store ++ [P, P] ∧
    (processAll [req, req] st).1.map Response.status = [200, 200] ∧
    (processAll [req, req] st).2.store.length = st.store.length + 2 ∧
    (processAll [req, req] st).2.file =
      st.file ++ ((dumpChars P ++ ['\n']) ++ (dumpChars P ++ ['\n'])) := by
  obtain ⟨jo, wo⟩ := req
  cases hj
  cases hw
  refine ⟨?_, rfl, ?_, ?_⟩ <;> simp [processAll, receive_usage]

/-- C8 witness: the payload `{"tokens": 5}` sent twice to an empty log. -/
theorem receive_usage_not_idempotent_witness :
    (processAll [⟨.ok (Json.obj [("tokens", Json.num 5)]), .accepted⟩,
        ⟨.ok (Json.obj [("tokens", Json.num 5)]), .accepted⟩] ⟨[], []⟩).2.store =
      [] ++ [Json.obj [("tokens", Json.num 5)], Json.obj [("tokens", Json.num 5)]] ∧
    (processAll [⟨.ok (Json.obj [("tokens", Json.num 5)]), .accepted⟩,
        ⟨.ok (Json.obj [("tokens", Json.num 5)]), .accepted⟩] ⟨[], []⟩).1.map Response.status =
      [200, 200] ∧
    (processAll [⟨.ok (Json.obj [("tokens", Json.num 5)]), .accepted⟩,
        ⟨.ok (Json.obj [("tokens", Json.num 5)]), .accepted⟩] ⟨[], []⟩).2.store.length =
      List.length ([] : Store) + 2 ∧
    (processAll [⟨.ok (Json.obj [("tokens", Json.num 5)]), .accepted⟩,
        ⟨.ok (Json.obj [("tokens", Json.num 5)]), .accepted⟩] ⟨[], []⟩).2.file =
      [] ++ ((dumpChars (Json.obj [("tokens", Json.num 5)]) ++ ['\n']) ++
        (dumpChars (Json.obj [("tokens", Json.num 5)]) ++ ['\n'])) :=
  receive_usage_not_idempotent _ ⟨[], []⟩ (Json.obj [("tokens", Json.num 5)]) rfl rfl

/-- C9: whenever the handler catches an exception — the body failed to parse,
or the append raised — the 500 response's message field is exactly `str(e)`,
the caught exception's own text, exposed verbatim to the caller. -/
theorem receive_usage_error_message_verbatim (req : Request) (st : LogState) (e : String)
    (h : req.jsonOutcome = .error e ∨
      (∃ P, req.jsonOutcome = .ok P) ∧ ∃ k, req.writeOutcome = .failed k e) :
    (receive_usage req st).resp.status = 500 ∧
    (receive_usage req st).resp.body =
      Json.obj [("status", Json.str "error"), ("message", Json.str e)] := by
  obtain ⟨jo, wo⟩ := req
  rcases h with h | ⟨⟨P, hP⟩, k, hw⟩
  · cases h
    exact ⟨rfl, rfl⟩
  · cases hP
    cases hw
    exact ⟨rfl, rfl⟩

/-- C9 witness: an append failure whose OS-level error text appears verbatim
in the response body. -/
theorem receive_usage_error_message_verbatim_witness :
    (receive_usage ⟨.ok Json.null, .failed 0 "[Errno 28] No space left on device"⟩
      ⟨[], []⟩).resp.status = 500 ∧
    (receive_usage ⟨.ok Json.null, .failed 0 "[Errno 28] No space left on device"⟩
      ⟨[], []⟩).resp.body =
      Json.obj [("status", Json.str "error"),
        ("message", Json.str "[Errno 28] No space left on device")] :=
  receive_usage_error_message_verbatim _ ⟨[], []⟩ "[Errno 28] No space left on device"
    (Or.inr ⟨⟨Json.null, rfl⟩, 0, rfl⟩)

/-- C10: every 200 response carries, besides `"status": "ok"`, the fixed
non-empty message `"用量数据已接收"`; in particular the success body is not the
bare object `{"status": "ok"}`. -/
theorem receive_usage_success_body_has_message (req : Request) (st : LogState)
    (h : (receive_usage req st).resp.status = 200) :
    (receive_usage req st).resp.body =
      Json.obj [("status", Json.str "ok"), ("message", Json.str "用量数据已接收")] ∧
    ("用量数据已接收" : String) ≠ "" ∧
    (receive_usage req st).resp.body ≠ Json.obj [("status", Json.str "ok")] := by
  obtain ⟨jo, wo⟩ := req
  cases jo with
  | error e => simp [receive_usage] at h
  | ok data =>
      cases wo with
      | failed k e => simp [receive_usage] at h
      | accepted =>
          refine ⟨rfl, by decide, ?_⟩
          show okBody ≠ Json.obj [("status", Json.str "ok")]
          simp [okBody]

/-- C10 witness: a concrete successful request. -/
theorem receive_usage_success_body_has_message_witness :
    (receive_usage ⟨.ok (Json.num 3), .accepted⟩ ⟨[], []⟩).resp.body =
      Json.obj [("status", Json.str "ok"), ("message", Json.str "用量数据已接收")] ∧
    ("用量数据已接收" : String) ≠ "" ∧
    (receive_usage ⟨.ok (Json.num 3), .accepted⟩ ⟨[], []⟩).resp.body ≠
      Json.obj [("status", Json.str "ok")] :=
  receive_usage_success_body_has_message ⟨.ok (Json.num 3), .accepted⟩ ⟨[], []⟩ rfl

/-- A decimal digit character is never a newline. -/
theorem digitChar_ne_newline (d : Nat) : digitChar d ≠ '\n' := by
  have h : d % 10 < 10 := Nat.mod_lt _ (by omega)
  unfold digitChar
  generalize hm : d % 10 = m at *
  interval_cases m <;> decide

/-- A hex digit character is never a newline. -/
theorem hexDigit_ne_newline (n : Nat) : hexDigit n ≠ '\n' := by
  have h : n % 16 < 16 := Nat.mod_lt _ (by omega)
  unfold hexDigit
  generalize hm : n % 16 = m at *
  interval_cases m <;> decide

/-- Decimal renderings of naturals contain no newline. -/
theorem natCharsAux_noNL (fuel : Nat) : ∀ n, '\n' ∉ natCharsAux fuel n := by
  induction fuel with
  | zero => intro n h; simp [natCharsAux] at h
  | succ fuel ih =>
      intro n h
      unfold natCharsAux at h
      by_cases hn : n < 10
      · rw [if_pos hn] at h
        rcases List.mem_singleton.mp h with h
        exact digitChar_ne_newline n h.symm
      · rw [if_neg hn] at h
        rcases List.mem_append.mp h with h | h
        · exact ih _ h
        · rcases List.mem_singleton.mp h with h
          exact digitChar_ne_newline _ h.symm

/-- Decimal renderings of integers contain no newline. -/
theorem intChars_noNL (n : Int) : '\n' ∉ intChars n := by
  unfold intChars natChars
  split
  · intro h
    rcases List.mem_cons.mp h with h | h
    · exact absurd h (by decide)
    · exact natCharsAux_noNL _ _ h
  · exact natCharsAux_noNL _ _

/-- The escape of any single character contains no newline: the newline
character itself is rendered as the two characters `\` and `n`. -/
theorem escapeChar_noNL (c : Char) : '\n' ∉ escapeChar c := by
  unfold escapeChar
  by_cases h1 : c = '"'
  · rw [if_pos h1]; decide
  rw [if_neg h1]
  by_cases h2 : c = '\\'
  · rw [if_pos h2]; decide
  rw [if_neg h2]
  by_cases h3 : c = '\n'
  · rw [if_pos h3]; decide
  rw [if_neg h3]
  by_cases h4 : c = '\r'
  · rw [if_pos h4]; decide
  rw [if_neg h4]
  by_cases h5 : c = '\t'
  · rw [if_pos h5]; decide
  rw [if_neg h5]
  by_cases h6 : c.toNat = 8
  · rw [if_pos h6]; decide
  rw [if_neg h6]
  by_cases h7 : c.toNat = 12
  · rw [if_pos h7]; decide
  rw [if_neg h7]
  by_cases h8 : c.toNat < 32
  · rw [if_pos h8]
    intro h
    rcases List.mem_cons.mp h with h | h
    · exact absurd h (by decide)
    rcases List.mem_cons.mp h with h | h
    · exact absurd h (by decide)
    simp only [hex4, List.mem_cons, List.not_mem_nil, or_false] at h
    rcases h with h | h | h | h <;> exact hexDigit_ne_newline _ h.symm
  · rw [if_neg h8]
    intro h
    rcases List.mem_singleton.mp h with h
    exact h3 h.symm

/-- A serialized JSON string literal contains no newline. -/
theorem quoteChars_noNL (cs : List Char) : '\n' ∉ quoteChars cs := by
  unfold quoteChars
  intro h
  rcases List.mem_cons.mp h with h | h
  · exact absurd h (by decide)
  rcases List.mem_append.mp h with h | h
  · rcases List.mem_flatten.mp h with ⟨l, hl, hc⟩
    rcases List.mem_map.mp hl with ⟨c, _, rfl⟩
    exact escapeChar_noNL c hc
  · exact absurd h (by decide)

mutual

/-- The serialization of any JSON value contains no newline character. -/
theorem dumpChars_noNL : (j : Json) → '\n' ∉ dumpChars j
  | .null => by decide
  | .bool true => by decide
  | .bool false => by decide
  | .num n => intChars_noNL n
  | .str s => quoteChars_noNL s.data
  | .arr xs => by
      have harr := dumpsArr_noNL xs
      intro hc
      simp only [dumpChars] at hc
      rcases List.mem_cons.mp hc with hc | hc
      · exact absurd hc (by decide)
      rcases List.mem_append.mp hc with hc | hc
      · exact harr hc
      · exact absurd hc (by decide)
  | .obj kvs => by
      have hm := dumpsMembers_noNL kvs
      intro hc
      simp only [dumpChars] at hc
      rcases List.mem_cons.mp hc with hc | hc
      · exact absurd hc (by decide)
      rcases List.mem_append.mp hc with hc | hc
      · exact hm hc
      · exact absurd hc (by decide)

/-- Serialized array bodies contain no newline character. -/
theorem dumpsArr_noNL : (xs : List Json) → '\n' ∉ dumpsArr xs
  | [] => by simp [dumpsArr]
  | [x] => by
      have h := dumpChars_noNL x
      simpa [dumpsArr] using h
  | x :: y :: xs => by
      have h1 := dumpChars_noNL x
      have h2 := dumpsArr_noNL (y :: xs)
      intro hc
      simp only [dumpsArr] at hc
      rcases List.mem_append.mp hc with hc | hc
      · exact h1 hc
      rcases List.mem_cons.mp hc with hc | hc
      · exact absurd hc (by decide)
      rcases List.mem_cons.mp hc with hc | hc
      · exact absurd hc (by decide)
      · exact h2 hc

/-- Serialized object bodies contain no newline character. -/
theorem dumpsMembers_noNL : (kvs : List (String × Json)) → '\n' ∉ dumpsMembers kvs
  | [] => by simp [dumpsMembers]
  | [(k, v)] => by
      have h1 := quoteChars_noNL k.data
      have h2 := dumpChars_noNL v
      intro hc
      simp only [dumpsMembers] at hc
      rcases List.mem_append.mp hc with hc | hc
      · exact h1 hc
      rcases List.mem_cons.mp hc with hc | hc
      · exact absurd hc (by decide)
      rcases List.mem_cons.mp hc with hc | hc
      · exact absurd hc (by decide)
      · exact h2 hc
  | (k, v) :: m :: kvs => by
      have h1 := quoteChars_noNL k.data
      have h2 := dumpChars_noNL v
      have h3 := dumpsMembers_noNL (m :: kvs)
      intro hc
      simp only [dumpsMembers] at hc
      rcases List.mem_append.mp hc with hc | hc
      · rcases List.mem_append.mp hc with hc | hc
        · exact h1 hc
        rcases List.mem_cons.mp hc with hc | hc
        · exact absurd hc (by decide)
        rcases List.mem_cons.mp hc with hc | hc
        · exact absurd hc (by decide)
        · exact h2 hc
      · rcases List.mem_cons.mp hc with hc | hc
        · exact absurd hc (by decide)
        rcases List.mem_cons.mp hc with hc | hc
        · exact absurd hc (by decide)
        · exact h3 hc

end

/-- Prepending a character onto the first line of a split, used while a line
is still being accumulated. -/
def consHead (c : Char) : List (List Char) → List (List Char)
  | [] => [[c]]
  | l :: ls => (c :: l) :: ls

/-- Splitting a character stream at newline terminators, the way any
line-oriented reader of `usage_log.jsonl` recovers its records. -/
def splitLines : List Char → List (List Char)
  | [] => []
  | c :: cs =>
      if c = '\n' then [] :: splitLines cs
      else consHead c (splitLines cs)

/-- Stripping one newline-terminated line off the front of a stream, provided
the line itself contains no newline. -/
theorem splitLines_line (line rest : List Char) (h : '\n' ∉ line) :
    splitLines (line ++ '\n' :: rest) = line :: splitLines rest := by
  induction line with
  | nil => simp [splitLines]
  | cons c cs ih =>
      have hc : c ≠ '\n' := fun hh => h (hh ▸ List.mem_cons_self c cs)
      have hcs : '\n' ∉ cs := fun hh => h (List.mem_cons_of_mem _ hh)
      rw [List.cons_append]
      show splitLines (c :: (cs ++ '\n' :: rest)) = _
      rw [splitLines, if_neg hc, ih hcs]
      rfl

/-- A line-oriented reader of the file image recovers exactly the committed
records' serializations, one per line, in order. -/
theorem splitLines_fileChars (s : Store) :
    splitLines (fileChars s) = s.map (fun r => dumpChars r) := by
  induction s with
  | nil => rfl
  | cons r rs ih =>
      show splitLines (dumpChars r ++ '\n' :: fileChars rs) = _
      rw [splitLines_line _ _ (dumpChars_noNL r), ih]
      rfl

/-- C5: every append writes exactly one line. The record's serialization
contains no newline character; the append extends the file image by exactly
that serialization followed by one `'\n'` terminator; and after the append
(as before it) a line-splitting reader recovers one serialized JSON record
per line — the file is a plain line-delimited JSON log, an invariant every
append preserves. -/
theorem usage_log_single_line_invariant (v : Json) (s : Store) :
    '\n' ∉ dumpChars v ∧
    fileChars (s ++ [v]) = fileChars s ++ (dumpChars v ++ ['\n']) ∧
    splitLines (fileChars (s ++ [v])) = (s ++ [v]).map (fun r => dumpChars r) ∧
    splitLines (fileChars s) = s.map (fun r => dumpChars r) :=
  ⟨dumpChars_noNL v,
   by rw [fileChars_append]; rfl,
   splitLines_fileChars (s ++ [v]),
   splitLines_fileChars s⟩
